import Mathlib

/-!
Shallow embedding of the `multiAgentCli` repository (two parallel CLI
implementations, `claudecode` and `codechat`): mock backend chat,
fenced-code extraction, the edit loop, the safe runner, and OpenAI
backend construction.  Pure string/list functions model the Python
functions; child-process behaviour is modelled by an explicit outcome
datatype; exceptions are modelled with `Except`.
-/

set_option maxRecDepth 4000

/-- Backtick character (U+0060), the fence delimiter character. -/
def btick : Char := Char.ofNat 96

/-- Triple-backtick fence marker, the delimiter used by both regexes. -/
def fence : List Char := [btick, btick, btick]

/-- Characters matched by the regex class `\w` (ASCII fragment). -/
def isWordChar (c : Char) : Bool := c.isAlphanum || c = '_'

/-- Whitespace characters removed by Python `str.strip()`. -/
def isPySpace (c : Char) : Bool :=
  c = ' ' || c = '\t' || c = '\n' || c = '\r' || c = '\x0b' || c = '\x0c'

/-- Python `str.strip()` on a character list: drop leading and trailing
whitespace. -/
def pyStrip (l : List Char) : List Char :=
  ((l.dropWhile isPySpace).reverse.dropWhile isPySpace).reverse

/-- Python `str.strip()` on strings. -/
def pyStripStr (s : String) : String := String.mk (pyStrip s.data)

/-- Python substring containment `pat in l`. -/
def containsSub (pat : List Char) : List Char → Bool
  | [] => pat.isPrefixOf []
  | c :: rest => pat.isPrefixOf (c :: rest) || containsSub pat rest

/-- Python `str.lower()` (ASCII fragment). -/
def pyLower (s : String) : String := String.mk (s.data.map Char.toLower)

/-- Python `str.endswith(t)`. -/
def pyEndsWith (s t : String) : Bool := t.data.isSuffixOf s.data

/-- Whether the text contains a triple-backtick fence marker anywhere. -/
def hasFence : List Char → Bool
  | [] => false
  | c :: rest => fence.isPrefixOf (c :: rest) || hasFence rest

/-- Split a list at the first occurrence of `pat`: returns the part
before the occurrence and the part after it.  `none` when `pat` does not
occur.  This is the semantics of the lazy `(.*?)pat` regex fragment. -/
def splitFirst (pat : List Char) : List Char → Option (List Char × List Char)
  | [] => if pat.isPrefixOf ([] : List Char) then some ([], []) else none
  | c :: rest =>
    if pat.isPrefixOf (c :: rest) then some ([], (c :: rest).drop pat.length)
    else (splitFirst pat rest).map (fun p => (c :: p.1, p.2))

/-- One attempted match of the codechat regex
`r"```(?:\w+)?\n(.*?)```"` (with `re.S`) anchored at the head of `l`:
a fence marker, an optional greedy run of word characters, a mandatory
newline, then the shortest body up to the next fence marker.  Returns
the captured body. -/
def matchAt (l : List Char) : Option (List Char) :=
  if fence.isPrefixOf l then
    match (l.drop 3).dropWhile isWordChar with
    | [] => none
    | c :: rest =>
      if c = '\n' then (splitFirst fence rest).map Prod.fst else none
  else none

/-- `re.search` for the codechat fence regex: try `matchAt` at each
successive position, returning the leftmost successful match. -/
def searchFence : List Char → Option (List Char)
  | [] => none
  | c :: rest =>
    match matchAt (c :: rest) with
    | some r => some r
    | none => searchFence rest

/-- Whether an opening fence marker, followed by an optional word-character
language tag, is immediately followed by a newline at the head of `l`. -/
def isOpenAt (l : List Char) : Bool :=
  if fence.isPrefixOf l then
    match (l.drop 3).dropWhile isWordChar with
    | [] => false
    | c :: _ => c = '\n'
  else false

/-- Whether the text contains, at any position, an opening fence marker
followed (after an optional word-character tag) by a newline. -/
def hasOpenFence : List Char → Bool
  | [] => false
  | c :: rest => isOpenAt (c :: rest) || hasOpenFence rest

/-- Concatenation, in delivery order, of the fragments pushed to a
streaming callback. -/
def concatFragments : List String → String
  | [] => ""
  | f :: rest => f ++ concatFragments rest

/-- Result triple of a `safe_run_file` call: exit code, captured stdout,
captured stderr. -/
structure RunResult where
  exitCode : Int
  stdout : String
  stderr : String
deriving DecidableEq, Repr

/-- A `safe_run_file` return value together with the observable process
effects: whether a child process was spawned, and whether it was
forcibly killed. -/
structure RunTrace where
  spawned : Bool
  killed : Bool
  result : RunResult
deriving DecidableEq, Repr

/-- Behaviour of the child-process machinery during one `safe_run_file`
call: the child completes within the timeout, the wait times out
(`subprocess.TimeoutExpired`), spawning raises, or communication raises
some other exception. -/
inductive ChildOutcome where
  | completes (returncode : Int) (out err : String)
  | timesOut
  | spawnError (msg : String)
  | commError (msg : String)
deriving DecidableEq, Repr

namespace claudecode

/-- Canned fenced snippet of `claudecode.backend.MockBackend.chat`. -/
def mockSnippet : String :=
  "```python\n# example generated\nprint(\x27Hello from mock\x27)\n```"

/-- Buffered (`stream=False`) response of
`claudecode.backend.MockBackend.chat`. -/
def MockBackend.chat (prompt : String) : String :=
  if containsSub ("code".data) (pyLower prompt).data then mockSnippet
  else
    "Mock response to: " ++
      (if 200 < prompt.length then String.mk (prompt.data.take 200) ++ "..."
       else prompt)

/-- Fragments delivered to `on_stream`, in order, by a streaming
(`stream=True`) call of `claudecode.backend.MockBackend.chat`: the
response is emitted one character at a time. -/
def MockBackend.chatFragments (prompt : String) : List String :=
  (MockBackend.chat prompt).data.map (fun c => String.singleton c)

/-- Connection state built by `claudecode.backend.OpenAIBackend.__init__`. -/
structure OpenAIBackend where
  api_key : String
  model_name : String
  url : String
deriving DecidableEq, Repr

/-- `claudecode.backend.OpenAIBackend.__init__`: raises `RuntimeError`
when `api_key` is falsy (absent or empty). -/
def OpenAIBackend.init (api_key : Option String) (model_name : String) :
    Except String OpenAIBackend :=
  match api_key with
  | none => .error "OPENAI_API_KEY missing for OpenAI backend"
  | some k =>
    if k = "" then .error "OPENAI_API_KEY missing for OpenAI backend"
    else
      .ok { api_key := k, model_name := model_name,
            url := "https://api.openai.com/v1/chat/completions" }

/-- `claudecode.executor.safe_run_file`, with the child-process
behaviour supplied as an explicit outcome.  Non-`.py` paths are rejected
before any spawn; timeouts kill the child and return the sentinel 124;
every other exception is caught and converted to exit code 1. -/
def safe_run_file (path : String) (outcome : ChildOutcome) : RunTrace :=
  if pyEndsWith path ".py" then
    match outcome with
    | .completes rc out err =>
      { spawned := true, killed := false, result := ⟨rc, out, err⟩ }
    | .timesOut =>
      { spawned := true, killed := true, result := ⟨124, "", "Timeout"⟩ }
    | .spawnError msg =>
      { spawned := false, killed := false, result := ⟨1, "", msg⟩ }
    | .commError msg =>
      { spawned := true, killed := false, result := ⟨1, "", msg⟩ }
  else
    { spawned := false, killed := false,
      result := ⟨1, "", "Can only run .py files in this helper."⟩ }

end claudecode

namespace codechat

/-- Canned fenced response of `codechat.backends.mock.MockBackend.chat`,
returned for every prompt. -/
def mockResponse : String := "```python\nprint(\x27Hello from Mock!\x27)\n```"

/-- Buffered (`stream=False`) response of
`codechat.backends.mock.MockBackend.chat`: the canned fenced snippet,
independent of the prompt. -/
def MockBackend.chat (_prompt : String) : String := mockResponse

/-- Fragments delivered to `on_stream`, in order, by a streaming call of
`codechat.backends.mock.MockBackend.chat`: one character at a time. -/
def MockBackend.chatFragments (_prompt : String) : List String :=
  mockResponse.data.map (fun c => String.singleton c)

/-- Connection state built by
`codechat.backends.openai.OpenAIBackend.__init__`: the key is stored as
given, with no presence check. -/
structure OpenAIBackend where
  api_key : Option String
  model : String
  url : String
deriving DecidableEq, Repr

/-- `codechat.backends.openai.OpenAIBackend.__init__`: total, never
raises, stores the (possibly absent) key. -/
def OpenAIBackend.init (api_key : Option String) (model : String) :
    OpenAIBackend :=
  { api_key := api_key, model := model,
    url := "https://api.openai.com/v1/chat/completions" }

/-- `codechat.edit_loop.extract_code`:
`re.search(r"```(?:\w+)?\n(.*?)```", text, re.S)`, returning the first
captured body stripped, or `None`. -/
def extract_code (text : String) : Option String :=
  (searchFence text.data).map (fun body => String.mk (pyStrip body))

/-- The fence template used by `codechat.edit_loop.edit_loop` to embed a
file in its prompt. -/
def wrap_in_fence (x : String) : String := "```python\n" ++ x ++ "\n```"

/-- `codechat.edit_loop.edit_loop`, modelled as a function from the
initial file content, the model output, the auto-accept flag and the
user's confirmation answer to the final file content.  Python's
`if not code` treats both `None` and the empty string as "no code". -/
def edit_loop (content modelOutput : String) (auto_accept confirm : Bool) :
    String :=
  match extract_code modelOutput with
  | none => content
  | some code =>
    if code = "" then content
    else if auto_accept then code
    else if confirm then code
    else content

/-- `codechat.executor.safe_run_file`: only `subprocess.TimeoutExpired`
is caught; any other exception from spawn or communication propagates
to the caller (modelled as `Except.error`). -/
def safe_run_file (file : String) (outcome : ChildOutcome) :
    Except String RunTrace :=
  if pyEndsWith file ".py" then
    match outcome with
    | .completes rc out err =>
      .ok { spawned := true, killed := false, result := ⟨rc, out, err⟩ }
    | .timesOut =>
      .ok { spawned := true, killed := true, result := ⟨124, "", "Timeout"⟩ }
    | .spawnError msg => .error msg
    | .commError msg => .error msg
  else
    .ok { spawned := false, killed := false,
          result := ⟨1, "", "Only .py files supported"⟩ }

end codechat

/-! Helper lemmas about the fence-scanning machinery. -/

lemma fence_not_prefixOf_cons {c : Char} {l : List Char} (h : c ≠ btick) :
    fence.isPrefixOf (c :: l) = false := by
  have hb : (btick == c) = false := by
    simp only [beq_eq_false_iff_ne, ne_eq]
    exact fun hc => h hc.symm
  simp [fence, List.isPrefixOf, hb]

lemma fence_isPrefixOf_cons3 (x y z : Char) (l : List Char) :
    fence.isPrefixOf (x :: y :: z :: l) =
      ((btick == x) && (btick == y) && (btick == z)) := by
  simp [fence, List.isPrefixOf, Bool.and_assoc]

lemma matchAt_cons_none {c : Char} {l : List Char} (h : c ≠ btick) :
    matchAt (c :: l) = none := by
  unfold matchAt
  simp [fence_not_prefixOf_cons h]

lemma searchFence_cons_ne {c : Char} {l : List Char} (h : c ≠ btick) :
    searchFence (c :: l) = searchFence l := by
  simp [searchFence, matchAt_cons_none h]

lemma searchFence_append_no_btick {p l : List Char} (h : ∀ c ∈ p, c ≠ btick) :
    searchFence (p ++ l) = searchFence l := by
  induction p with
  | nil => rfl
  | cons c p ih =>
    rw [List.cons_append, searchFence_cons_ne (h c (by simp))]
    exact ih (fun d hd => h d (by simp [hd]))

lemma dropWhile_word_tag {tag : List Char} (rest : List Char)
    (h : ∀ c ∈ tag, isWordChar c = true) :
    (tag ++ '\n' :: rest).dropWhile isWordChar = '\n' :: rest := by
  induction tag with
  | nil =>
    have hn : isWordChar '\n' = false := by decide
    simp [List.dropWhile_cons, hn]
  | cons c t ih =>
    rw [List.cons_append, List.dropWhile_cons]
    simp only [h c (by simp), if_true]
    exact ih (fun d hd => h d (by simp [hd]))

lemma hasFence_eq_false_of_no_btick {l : List Char} (h : ∀ c ∈ l, c ≠ btick) :
    hasFence l = false := by
  induction l with
  | nil => rfl
  | cons c t ih =>
    simp [hasFence, fence_not_prefixOf_cons (h c (by simp)),
      ih (fun d hd => h d (by simp [hd]))]

lemma mem_of_getLast?_eq {l : List Char} {a : Char} (h : l.getLast? = some a) :
    a ∈ l := by
  induction l with
  | nil => simp at h
  | cons c t ih =>
    cases t with
    | nil =>
      simp only [List.getLast?_singleton, Option.some.injEq] at h
      simp [h]
    | cons d u =>
      rw [List.getLast?_cons_cons] at h
      exact List.mem_cons_of_mem _ (ih h)

lemma getLast?_ne_btick_of_no_btick {l : List Char} (h : ∀ c ∈ l, c ≠ btick) :
    l.getLast? ≠ some btick :=
  fun hc => h btick (mem_of_getLast?_eq hc) rfl

lemma splitFirst_fence_append {a : List Char} (rest : List Char)
    (h1 : hasFence a = false) (h2 : a.getLast? ≠ some btick) :
    splitFirst fence (a ++ (fence ++ rest)) = some (a, rest) := by
  induction a with
  | nil =>
    rw [List.nil_append,
      show fence ++ rest = btick :: btick :: btick :: rest from rfl]
    have hp : fence.isPrefixOf (btick :: btick :: btick :: rest) = true := by
      simp [fence, List.isPrefixOf]
    simp [splitFirst, hp, fence]
  | cons c a ih =>
    have h1head : fence.isPrefixOf (c :: a) = false := by
      unfold hasFence at h1
      exact (Bool.or_eq_false_iff.mp h1).1
    have h1' : hasFence a = false := by
      unfold hasFence at h1
      exact (Bool.or_eq_false_iff.mp h1).2
    have h2' : a.getLast? ≠ some btick := by
      cases a with
      | nil => simp
      | cons d t => rw [List.getLast?_cons_cons] at h2; exact h2
    have hnp : fence.isPrefixOf (c :: (a ++ (fence ++ rest))) = false := by
      rcases a with _ | ⟨d, _ | ⟨e, t⟩⟩
      · have hcb : c ≠ btick := by
          simp only [List.getLast?_singleton, ne_eq, Option.some.injEq] at h2
          exact h2
        exact fence_not_prefixOf_cons hcb
      · have hdb : d ≠ btick := by
          rw [List.getLast?_cons_cons, List.getLast?_singleton] at h2
          simpa using h2
        have hb : (btick == d) = false := by
          simp only [beq_eq_false_iff_ne, ne_eq]
          exact fun hd => hdb hd.symm
        rw [List.singleton_append,
          show fence ++ rest = btick :: btick :: btick :: rest from rfl,
          fence_isPrefixOf_cons3]
        simp [hb]
      · rw [fence_isPrefixOf_cons3] at h1head
        simp only [List.cons_append]
        rw [fence_isPrefixOf_cons3]
        exact h1head
    rw [List.cons_append]
    unfold splitFirst
    rw [hnp]
    simp only [Bool.false_eq_true, if_false, ih h1' h2', Option.map_some']

lemma matchAt_fence {tag body : List Char} (rest : List Char)
    (htag : ∀ c ∈ tag, isWordChar c = true)
    (h1 : hasFence body = false) (h2 : body.getLast? ≠ some btick) :
    matchAt (fence ++ (tag ++ ('\n' :: (body ++ (fence ++ rest))))) =
      some body := by
  unfold matchAt
  have hp : fence.isPrefixOf
      (fence ++ (tag ++ ('\n' :: (body ++ (fence ++ rest))))) = true := by
    rw [show fence ++ (tag ++ ('\n' :: (body ++ (fence ++ rest)))) =
      btick :: btick :: btick :: (tag ++ ('\n' :: (body ++ (fence ++ rest))))
      from rfl, fence_isPrefixOf_cons3]
    simp
  rw [hp]
  have hd : (fence ++ (tag ++ ('\n' :: (body ++ (fence ++ rest))))).drop 3 =
      tag ++ ('\n' :: (body ++ (fence ++ rest))) := rfl
  rw [if_pos rfl, hd, dropWhile_word_tag _ htag]
  simp only [if_pos rfl, reduceIte]
  rw [splitFirst_fence_append rest h1 h2]
  rfl

lemma searchFence_fence_head {tag body : List Char} (rest : List Char)
    (htag : ∀ c ∈ tag, isWordChar c = true)
    (h1 : hasFence body = false) (h2 : body.getLast? ≠ some btick) :
    searchFence (fence ++ (tag ++ ('\n' :: (body ++ (fence ++ rest))))) =
      some body := by
  have hm := matchAt_fence rest htag h1 h2
  rw [show fence ++ (tag ++ ('\n' :: (body ++ (fence ++ rest)))) =
    btick :: (btick :: btick :: (tag ++ ('\n' :: (body ++ (fence ++ rest)))))
    from rfl] at hm ⊢
  simp [searchFence, hm]

lemma hasFence_append_single {x : List Char} {c : Char} (hx : hasFence x = false)
    (hc : c ≠ btick) : hasFence (x ++ [c]) = false := by
  induction x with
  | nil => simp [hasFence, fence_not_prefixOf_cons hc]
  | cons d t ih =>
    have hx1 : fence.isPrefixOf (d :: t) = false := by
      unfold hasFence at hx
      exact (Bool.or_eq_false_iff.mp hx).1
    have hx2 : hasFence t = false := by
      unfold hasFence at hx
      exact (Bool.or_eq_false_iff.mp hx).2
    rw [List.cons_append]
    unfold hasFence
    rw [ih hx2, Bool.or_false]
    rcases t with _ | ⟨e, _ | ⟨f, u⟩⟩
    · simp [fence, List.isPrefixOf]
    · have hb : (btick == c) = false := by
        simp only [beq_eq_false_iff_ne, ne_eq]
        exact fun hcc => hc hcc.symm
      show fence.isPrefixOf (d :: e :: c :: ([] : List Char)) = false
      rw [fence_isPrefixOf_cons3]
      simp [hb]
    · rw [fence_isPrefixOf_cons3] at hx1
      show fence.isPrefixOf (d :: e :: f :: (u ++ [c])) = false
      rw [fence_isPrefixOf_cons3]
      exact hx1

lemma pyStrip_append_space {l : List Char} {c : Char} (hc : isPySpace c = true) :
    pyStrip (l ++ [c]) = pyStrip l := by
  unfold pyStrip
  rw [List.dropWhile_append]
  rcases h : l.dropWhile isPySpace with _ | ⟨d, r⟩
  · simp [List.dropWhile_cons, hc]
  · simp only [List.isEmpty_cons, Bool.false_eq_true, if_false,
      List.reverse_append, List.reverse_cons, List.reverse_nil,
      List.nil_append, List.singleton_append]
    rw [List.dropWhile_cons]
    simp [hc]

lemma concatFragments_singletons (l : List Char) :
    concatFragments (l.map (fun c => String.singleton c)) = String.mk l := by
  induction l with
  | nil => rfl
  | cons c t ih =>
    rw [List.map_cons]
    unfold concatFragments
    rw [ih]
    rfl

lemma isOpenAt_of_matchAt {l r : List Char} (h : matchAt l = some r) :
    isOpenAt l = true := by
  unfold matchAt at h
  unfold isOpenAt
  by_cases hp : fence.isPrefixOf l = true
  · rw [if_pos hp] at h ⊢
    rcases hd : (l.drop 3).dropWhile isWordChar with _ | ⟨c, rest⟩
    · rw [hd] at h
      exact Option.noConfusion h
    · rw [hd] at h
      have h' : (if c = '\n' then (splitFirst fence rest).map Prod.fst
          else none) = some r := h
      show decide (c = '\n') = true
      by_cases hcn : c = '\n'
      · simp [hcn]
      · rw [if_neg hcn] at h'
        exact Option.noConfusion h'
  · rw [Bool.not_eq_true] at hp
    simp [hp] at h

lemma searchFence_none_of_no_open {l : List Char} (h : hasOpenFence l = false) :
    searchFence l = none := by
  induction l with
  | nil => rfl
  | cons c t ih =>
    unfold hasOpenFence at h
    rw [Bool.or_eq_false_iff] at h
    unfold searchFence
    rcases hm : matchAt (c :: t) with _ | r
    · exact ih h.2
    · exact absurd (isOpenAt_of_matchAt hm) (by simp [h.1])

/-! Claim theorems. -/

/-- C1: for every `.py` path whose child process runs longer than the
timeout, both implementations of `safe_run_file` return the distinguished
exit code 124 with empty stdout and the timeout message in stderr, after
spawning the child and forcibly killing it, so the child is no longer
alive afterward. -/
theorem safe_run_timeout_spec (path : String)
    (h : pyEndsWith path ".py" = true) :
    claudecode.safe_run_file path .timesOut =
      { spawned := true, killed := true, result := ⟨124, "", "Timeout"⟩ } ∧
    codechat.safe_run_file path .timesOut =
      .ok { spawned := true, killed := true, result := ⟨124, "", "Timeout"⟩ } := by
  constructor
  · unfold claudecode.safe_run_file
    rw [if_pos h]
  · unfold codechat.safe_run_file
    rw [if_pos h]

/-- Witness for C1 at the concrete path `main.py`. -/
theorem safe_run_timeout_spec_witness :
    claudecode.safe_run_file "main.py" .timesOut =
      { spawned := true, killed := true, result := ⟨124, "", "Timeout"⟩ } ∧
    codechat.safe_run_file "main.py" .timesOut =
      .ok { spawned := true, killed := true, result := ⟨124, "", "Timeout"⟩ } :=
  safe_run_timeout_spec "main.py" (by decide)

/-- C7: for every path not ending in `.py`, both implementations of
`safe_run_file` return exit code 1 with an explanatory stderr message,
without spawning a child process, whatever the child-process machinery
would have done. -/
theorem safe_run_non_py_spec (path : String) (outcome : ChildOutcome)
    (h : pyEndsWith path ".py" = false) :
    claudecode.safe_run_file path outcome =
      { spawned := false, killed := false,
        result := ⟨1, "", "Can only run .py files in this helper."⟩ } ∧
    codechat.safe_run_file path outcome =
      .ok { spawned := false, killed := false,
            result := ⟨1, "", "Only .py files supported"⟩ } := by
  constructor
  · unfold claudecode.safe_run_file
    rw [if_neg (by simp [h])]
  · unfold codechat.safe_run_file
    rw [if_neg (by simp [h])]

/-- Witness for C7 at the concrete path `README.md`. -/
theorem safe_run_non_py_spec_witness :
    claudecode.safe_run_file "README.md" (.completes 0 "ok" "") =
      { spawned := false, killed := false,
        result := ⟨1, "", "Can only run .py files in this helper."⟩ } ∧
    codechat.safe_run_file "README.md" (.completes 0 "ok" "") =
      .ok { spawned := false, killed := false,
            result := ⟨1, "", "Only .py files supported"⟩ } :=
  safe_run_non_py_spec "README.md" (.completes 0 "ok" "") (by decide)

/-- C8 counterexample: codechat's `safe_run_file` does not catch a
non-timeout communication failure; the exception propagates to the
caller instead of being converted to an exit-code-1 result. -/
theorem codechat_exception_propagates_cex :
    codechat.safe_run_file "a.py" (.commError "Broken pipe") =
      .error "Broken pipe" := by
  unfold codechat.safe_run_file
  rw [if_pos (by decide)]

/-- C8 (amended): for every `.py` path and non-timeout spawn or
communication failure, claudecode's `safe_run_file` catches the exception
and returns exit code 1 with the error description in stderr, while
codechat's `safe_run_file`, which catches only the timeout, lets the same
exception propagate to the caller. -/
theorem safe_run_exception_amended_spec (path msg : String)
    (h : pyEndsWith path ".py" = true) :
    claudecode.safe_run_file path (.spawnError msg) =
      { spawned := false, killed := false, result := ⟨1, "", msg⟩ } ∧
    claudecode.safe_run_file path (.commError msg) =
      { spawned := true, killed := false, result := ⟨1, "", msg⟩ } ∧
    codechat.safe_run_file path (.spawnError msg) = .error msg ∧
    codechat.safe_run_file path (.commError msg) = .error msg := by
  refine ⟨?_, ?_, ?_, ?_⟩ <;>
    first
      | (unfold claudecode.safe_run_file; rw [if_pos h])
      | (unfold codechat.safe_run_file; rw [if_pos h])

/-- Witness for the amended C8 at a concrete path and message. -/
theorem safe_run_exception_amended_spec_witness :
    claudecode.safe_run_file "box.py" (.spawnError "No such file") =
      { spawned := false, killed := false, result := ⟨1, "", "No such file"⟩ } ∧
    claudecode.safe_run_file "box.py" (.commError "No such file") =
      { spawned := true, killed := false, result := ⟨1, "", "No such file"⟩ } ∧
    codechat.safe_run_file "box.py" (.spawnError "No such file") =
      .error "No such file" ∧
    codechat.safe_run_file "box.py" (.commError "No such file") =
      .error "No such file" :=
  safe_run_exception_amended_spec "box.py" "No such file" (by decide)

/-- C9 counterexample: codechat's `OpenAIBackend.__init__` performs no
credential check; constructing it with an absent API key returns a handle
storing `none` normally, instead of failing fast with a configuration
error. -/
theorem codechat_openai_init_no_check_cex :
    codechat.OpenAIBackend.init none "gpt-4o-mini" =
      { api_key := none, model := "gpt-4o-mini",
        url := "https://api.openai.com/v1/chat/completions" } := rfl

/-- C9 (amended): claudecode's OpenAI backend construction fails fast with
the configuration error when the API key is absent (or empty, which Python
also treats as falsy); codechat's construction never fails and stores the
absent key unchecked. -/
theorem openai_init_amended_spec (k : Option String) (m : String)
    (h : k = none ∨ k = some "") :
    claudecode.OpenAIBackend.init k m =
      .error "OPENAI_API_KEY missing for OpenAI backend" ∧
    codechat.OpenAIBackend.init none m =
      { api_key := none, model := m,
        url := "https://api.openai.com/v1/chat/completions" } := by
  constructor
  · rcases h with h | h <;> subst h <;> rfl
  · rfl

/-- Witness for the amended C9 with the key absent. -/
theorem openai_init_amended_spec_witness :
    claudecode.OpenAIBackend.init none "gpt-4o-mini" =
      .error "OPENAI_API_KEY missing for OpenAI backend" ∧
    codechat.OpenAIBackend.init none "gpt-4o-mini" =
      { api_key := none, model := "gpt-4o-mini",
        url := "https://api.openai.com/v1/chat/completions" } :=
  openai_init_amended_spec none "gpt-4o-mini" (Or.inl rfl)

/-- C2: the edit loop leaves the file content unchanged when the model
output contains no extractable code block, and likewise when auto-accept
is off and the user declines at the confirmation prompt. -/
theorem edit_loop_no_write_spec (content modelOutput : String)
    (auto confirm : Bool) :
    (codechat.extract_code modelOutput = none →
      codechat.edit_loop content modelOutput auto confirm = content) ∧
    codechat.edit_loop content modelOutput false false = content := by
  constructor
  · intro h
    unfold codechat.edit_loop
    rw [h]
  · unfold codechat.edit_loop
    rcases h : codechat.extract_code modelOutput with _ | code
    · rfl
    · by_cases hc : code = ""
      · simp [hc]
      · simp [hc]

/-- Witness for C2: a fence-less model output leaves the file unchanged,
and so does a declined confirmation on output that does contain a block. -/
theorem edit_loop_no_write_spec_witness :
    codechat.extract_code "no block here" = none ∧
    codechat.edit_loop "print(1)\n" "no block here" true true = "print(1)\n" ∧
    codechat.edit_loop "print(1)\n" "```python\nprint(2)\n```" false false =
      "print(1)\n" :=
  ⟨by decide,
   (edit_loop_no_write_spec "print(1)\n" "no block here" true true).1
     (by decide),
   (edit_loop_no_write_spec "print(1)\n" "```python\nprint(2)\n```"
     false false).2⟩

/-- C3 counterexample: codechat's mock backend ignores the prompt; for
the prompt `hi`, which does not contain `code`, the buffered response is
the canned fenced snippet, and it does not even end with the prompt, so
it is not a fixed prefix followed by the prompt. -/
theorem codechat_mock_not_echo_cex :
    codechat.MockBackend.chat "hi" =
      "```python\nprint(\x27Hello from Mock!\x27)\n```" ∧
    "hi".data.isSuffixOf (codechat.MockBackend.chat "hi").data = false := by
  constructor
  · rfl
  · decide

/-- C3 (amended): claudecode's mock buffered chat behaves as the claim
states — the fixed fenced snippet when the prompt contains `code`
case-insensitively, otherwise the fixed prefix followed by the prompt,
truncating prompts longer than 200 characters to their first 200
characters with `...` appended — while codechat's mock buffered chat
returns its own fixed fenced snippet for every prompt. -/
theorem mock_chat_amended_spec (prompt : String) :
    (containsSub ("code".data) (pyLower prompt).data = true →
      claudecode.MockBackend.chat prompt = claudecode.mockSnippet) ∧
    (containsSub ("code".data) (pyLower prompt).data = false →
      prompt.length ≤ 200 →
      claudecode.MockBackend.chat prompt = "Mock response to: " ++ prompt) ∧
    (containsSub ("code".data) (pyLower prompt).data = false →
      200 < prompt.length →
      claudecode.MockBackend.chat prompt =
        "Mock response to: " ++ (String.mk (prompt.data.take 200) ++ "...")) ∧
    codechat.MockBackend.chat prompt = codechat.mockResponse := by
  refine ⟨?_, ?_, ?_, rfl⟩
  · intro h
    unfold claudecode.MockBackend.chat
    rw [if_pos h]
  · intro h hlen
    unfold claudecode.MockBackend.chat
    rw [if_neg (by simp [h]), if_neg (by omega)]
  · intro h hlen
    unfold claudecode.MockBackend.chat
    rw [if_neg (by simp [h]), if_pos hlen]

/-- Witness for the amended C3: a `CODE` prompt, a short plain prompt, a
201-character prompt, and codechat's constant answer. -/
theorem mock_chat_amended_spec_witness :
    claudecode.MockBackend.chat "Write some CODE" = claudecode.mockSnippet ∧
    claudecode.MockBackend.chat "hi" = "Mock response to: hi" ∧
    claudecode.MockBackend.chat (String.mk (List.replicate 201 'a')) =
      "Mock response to: " ++
        (String.mk ((List.replicate 201 'a').take 200) ++ "...") ∧
    codechat.MockBackend.chat "hi" = codechat.mockResponse :=
  ⟨(mock_chat_amended_spec "Write some CODE").1 (by decide),
   (mock_chat_amended_spec "hi").2.1 (by decide) (by decide),
   (mock_chat_amended_spec (String.mk (List.replicate 201 'a'))).2.2.1
     (by decide) (by decide),
   (mock_chat_amended_spec "hi").2.2.2⟩

/-- C4: for every prompt, concatenating the fragments delivered by a
streaming mock chat call, in callback-invocation order, equals the
buffered response of the same mock backend for that prompt, in both
implementations. -/
theorem mock_stream_roundtrip_spec (prompt : String) :
    concatFragments (claudecode.MockBackend.chatFragments prompt) =
      claudecode.MockBackend.chat prompt ∧
    concatFragments (codechat.MockBackend.chatFragments prompt) =
      codechat.MockBackend.chat prompt := by
  constructor
  · unfold claudecode.MockBackend.chatFragments
    rw [concatFragments_singletons]
  · unfold codechat.MockBackend.chatFragments
    rw [concatFragments_singletons]
    rfl

/-- C5: on a text of the shape
`pre ⬝ fence tag1 newline body1 fence ⬝ mid ⬝ fence tag2 newline body2
fence ⬝ post` — two complete fenced code blocks, with no backtick before
the first block, word-character language tags, and a backtick-free first
body — `extract_code` returns exactly the trimmed inner content of the
first block: the lazy match stops at the nearest closing fence, and the
second block and everything after it are ignored. -/
theorem extract_first_fence_spec
    (pre tag1 body1 mid tag2 body2 post : List Char)
    (hpre : ∀ c ∈ pre, c ≠ btick)
    (htag1 : ∀ c ∈ tag1, isWordChar c = true)
    (hbody1 : ∀ c ∈ body1, c ≠ btick)
    (_htag2 : ∀ c ∈ tag2, isWordChar c = true) :
    codechat.extract_code (String.mk
      (pre ++ (fence ++ (tag1 ++ ('\n' :: (body1 ++ (fence ++
        (mid ++ (fence ++ (tag2 ++ ('\n' :: (body2 ++
          (fence ++ post)))))))))))))
      = some (String.mk (pyStrip body1)) := by
  unfold codechat.extract_code
  rw [show (String.mk
      (pre ++ (fence ++ (tag1 ++ ('\n' :: (body1 ++ (fence ++
        (mid ++ (fence ++ (tag2 ++ ('\n' :: (body2 ++
          (fence ++ post))))))))))))).data =
      pre ++ (fence ++ (tag1 ++ ('\n' :: (body1 ++ (fence ++
        (mid ++ (fence ++ (tag2 ++ ('\n' :: (body2 ++
          (fence ++ post))))))))))) from rfl]
  rw [searchFence_append_no_btick hpre]
  rw [searchFence_fence_head
    (mid ++ (fence ++ (tag2 ++ ('\n' :: (body2 ++ (fence ++ post))))))
    htag1 (hasFence_eq_false_of_no_btick hbody1)
    (getLast?_ne_btick_of_no_btick hbody1)]
  rfl

/-- Witness for C5 on a concrete two-block text. -/
theorem extract_first_fence_spec_witness :
    codechat.extract_code (String.mk
      ("Text: ".data ++ (fence ++ ("python".data ++ ('\n' ::
        ("print(1)\n".data ++ (fence ++ (" and ".data ++ (fence ++
          ("".data ++ ('\n' :: ("print(2)\n".data ++
            (fence ++ "!".data)))))))))))))
      = some (String.mk (pyStrip ("print(1)\n".data))) :=
  extract_first_fence_spec "Text: ".data "python".data "print(1)\n".data
    " and ".data "".data "print(2)\n".data "!".data
    (by decide) (by decide) (by decide) (by decide)

/-- C6: wrapping any code string that contains no triple-backtick fence
marker in the edit-loop fence template and extracting returns the string
with surrounding whitespace stripped:
`extract_code (wrap_in_fence x) = some (x.strip())`. -/
theorem extract_wrap_strip_spec (x : String) (h : hasFence x.data = false) :
    codechat.extract_code (codechat.wrap_in_fence x) =
      some (pyStripStr x) := by
  obtain ⟨l⟩ := x
  have h' : hasFence l = false := h
  have hlast : (l ++ ['\n']).getLast? ≠ some btick := by
    rw [List.getLast?_concat]
    intro hq
    rw [Option.some_inj] at hq
    exact absurd hq (by decide)
  have hbody : hasFence (l ++ ['\n']) = false :=
    hasFence_append_single h' (by decide)
  have hdata : (codechat.wrap_in_fence (String.mk l)).data =
      fence ++ ("python".data ++ ('\n' ::
        ((l ++ ['\n']) ++ (fence ++ ([] : List Char))))) := by
    show ("```python\n".data ++ l) ++ "\n```".data =
      fence ++ ("python".data ++ ('\n' ::
        ((l ++ ['\n']) ++ (fence ++ ([] : List Char)))))
    simp only [List.append_nil, List.append_assoc, List.singleton_append]
    rfl
  unfold codechat.extract_code
  rw [hdata, searchFence_fence_head ([] : List Char) (by decide) hbody hlast]
  show some (String.mk (pyStrip (l ++ ['\n']))) =
    some (pyStripStr (String.mk l))
  rw [pyStrip_append_space (by decide)]
  rfl

/-- Witness for C6 at a concrete bare code string with surrounding
whitespace and a single (non-fence) backtick. -/
theorem extract_wrap_strip_spec_witness :
    hasFence ("  x = `1`  ".data) = false ∧
    codechat.extract_code (codechat.wrap_in_fence "  x = `1`  ") =
      some (pyStripStr "  x = `1`  ") :=
  ⟨by decide, extract_wrap_strip_spec "  x = `1`  " (by decide)⟩

/-- C10: when no opening triple-backtick marker in the text is followed
(after an optional word-character language tag) by a newline character,
`extract_code` returns `none`, even if matching closing fences exist. -/
theorem extract_none_no_open_fence_spec (text : String)
    (h : hasOpenFence text.data = false) :
    codechat.extract_code text = none := by
  unfold codechat.extract_code
  rw [searchFence_none_of_no_open h]
  rfl

/-- Witness for C10: the single-line fence text is never extracted. -/
theorem extract_none_no_open_fence_spec_witness :
    hasOpenFence ("```print(1)```".data) = false ∧
    codechat.extract_code "```print(1)```" = none :=
  ⟨by decide, extract_none_no_open_fence_spec "```print(1)```" (by decide)⟩
